import Mathlib

/-!
Verification of the mutation-test scheduling pipeline in
`packages/stryker/src/process/MutationTestExecutor.ts`.

The pure classification helpers (`earlyResult`, `runInSandbox`,
`collectMutantResult`) are embedded directly as Lean functions.  The reactive
pipeline `runInsideSandboxes` (zip of the transpiled-mutant stream with the
merged initial/recycled sandbox supply, flatMap into sandbox execution,
tap-recycle, tap-report, toArray, completeRecycle, reportAll) is embedded as a
small-step transition system over an explicit pipeline state, with an event
trace recording pairings, recycles, reports and the close signal.
-/

set_option autoImplicit false

namespace Stryker

/-- A sandbox is an opaque reusable execution environment; only its identity
matters to the scheduling pipeline, so it is modelled as a natural number. -/
abbrev Sandbox := Nat

/-- Test status as in `stryker-api/test_runner` (`TestStatus`). -/
inductive TestStatus where
  | Success
  | Failed
  | Skipped
deriving DecidableEq, Repr

/-- One test's outcome inside a `RunResult` (`stryker-api/test_runner`). -/
structure TestResult where
  name : String
  status : TestStatus
deriving DecidableEq, Repr

/-- `RunStatus` is a TypeScript numeric enum; it is modelled as `Nat` so that
out-of-range status values (possible at runtime in TypeScript) are
representable.  The three declared members follow. -/
abbrev RunStatusCode := Nat

/-- `RunStatus.Complete` -/
def RunStatus.Complete : RunStatusCode := 0

/-- `RunStatus.Error` -/
def RunStatus.Error : RunStatusCode := 1

/-- `RunStatus.Timeout` -/
def RunStatus.Timeout : RunStatusCode := 2

/-- The result of actually executing tests in a sandbox
(`stryker-api/test_runner` `RunResult`): a completion status and the per-test
outcomes. -/
structure RunResult where
  status : RunStatusCode
  tests : List TestResult
deriving DecidableEq, Repr

/-- `MutantStatus` from `stryker-api/report`.  The spec's verdict names map to
these as: TranspileFailed = `TranspileError`, NotCovered = `NoCoverage`,
ExecutionError = `RuntimeError`; the rest coincide. -/
inductive MutantStatus where
  | Killed
  | Survived
  | TimedOut
  | NoCoverage
  | RuntimeError
  | TranspileError
deriving DecidableEq, Repr

/-- Modelled from the spec: a `TestableMutant` identifies one code mutation
(`id` stands for the mutant identity) and carries the set of tests known to
exercise it (`selectedTests`); only these two facets are consumed by the
executor. -/
structure TestableMutant where
  id : Nat
  selectedTests : List String
deriving DecidableEq, Repr

/-- Modelled from the spec: a Verdict (`MutantResult`) is the final
classification of a mutant — its identity, one of the six statuses, and the
list of test names actually exercised. -/
structure MutantResult where
  mutantId : Nat
  status : MutantStatus
  testsRan : List String
deriving DecidableEq, Repr

/-- Modelled from the spec: `TestableMutant.result(status, testNames)` builds
the Verdict for this mutant. -/
def TestableMutant.result (m : TestableMutant) (status : MutantStatus)
    (testNames : List String) : MutantResult :=
  ⟨m.id, status, testNames⟩

/-- The transform outcome carried by a `TranspiledMutant`
(`TranspileResult.error : string | null`). -/
structure TranspileResult where
  error : Option String
deriving DecidableEq, Repr

/-- A `TranspiledMutant`: the mutant plus its transform outcome and whether
the transform changed any transpiled file relative to the baseline. -/
structure TranspiledMutant where
  mutant : TestableMutant
  transpileResult : TranspileResult
  changedAnyTranspiledFiles : Bool
deriving DecidableEq, Repr

/-- `collectMutantResult(mutant, runResult)` from `MutationTestExecutor.ts`:
status starts as `NoCoverage`, the switch on `runResult.status` (guarded by a
truthiness check on `runResult`) may override it, and the test-name list is
the names of the non-skipped tests (empty when `runResult` is absent). -/
def collectMutantResult (mutant : TestableMutant) (runResult : Option RunResult) :
    MutantResult :=
  match runResult with
  | some rr =>
      let status : MutantStatus :=
        if rr.status = RunStatus.Timeout then MutantStatus.TimedOut
        else if rr.status = RunStatus.Error then MutantStatus.RuntimeError
        else if rr.status = RunStatus.Complete then
          if rr.tests.any (fun t => t.status = TestStatus.Failed) then
            MutantStatus.Killed
          else
            MutantStatus.Survived
        else MutantStatus.NoCoverage
      let testNames : List String :=
        (rr.tests.filter (fun t => t.status ≠ TestStatus.Skipped)).map
          (fun t => t.name)
      mutant.result status testNames
  | none => mutant.result MutantStatus.NoCoverage []

/-- `earlyResult([transpiledMutant, sandbox])` from `MutationTestExecutor.ts`:
the first-match-wins early classification.  Returns the pair extended with the
early Verdict, or `none` when the mutant must run in the sandbox. -/
def earlyResult (p : TranspiledMutant × Sandbox) :
    TranspiledMutant × Sandbox × Option MutantResult :=
  let tm := p.1
  let sandbox := p.2
  if tm.transpileResult.error.isSome then
    (tm, sandbox, some (tm.mutant.result MutantStatus.TranspileError []))
  else if tm.mutant.selectedTests.length = 0 then
    (tm, sandbox, some (tm.mutant.result MutantStatus.NoCoverage []))
  else if !tm.changedAnyTranspiledFiles then
    (tm, sandbox, some (tm.mutant.result MutantStatus.Survived []))
  else
    (tm, sandbox, none)

/-- `runInSandbox([transpiledMutant, sandbox, earlyResult])` from
`MutationTestExecutor.ts`.  The external `sandbox.runMutant` call is
abstracted as the oracle argument `runMutant`; when an early Verdict is
present the oracle is not consulted. -/
def runInSandbox (runMutant : Sandbox → TranspiledMutant → RunResult)
    (x : TranspiledMutant × Sandbox × Option MutantResult) :
    Sandbox × MutantResult :=
  match x with
  | (_, sandbox, some early) => (sandbox, early)
  | (tm, sandbox, none) =>
      (sandbox, collectMutantResult tm.mutant (some (runMutant sandbox tm)))

/-- The Verdict a pairing ends with: `earlyResult` followed by
`runInSandbox`, exactly as the pipeline composes them (`map(earlyResult)`
then `flatMap(runInSandbox)`). -/
def pairVerdict (runMutant : Sandbox → TranspiledMutant → RunResult)
    (tm : TranspiledMutant) (sandbox : Sandbox) : MutantResult :=
  (runInSandbox runMutant (earlyResult (tm, sandbox))).2

/-!
## Pipeline model

`runInsideSandboxes` zips the transpiled-mutant stream with
`merge(recycled, sandboxes)`, dispatches each pair through
`earlyResult`/`runInSandbox`, recycles the sandbox (`tap(recycle)`), reports
each Verdict (`tap(reportResult)`), collects them with `toArray`, and finally
signals `completeRecycle` and `reportAll`.  The transition system below has
one step per pipeline activity:

* `arrive` — the pool's `streamSandboxes()` observable emits a sandbox into
  the merged supply;
* `dispatch` — `zip` pairs the next mutant with the next merged-supply
  sandbox and `flatMap` subscribes to `runInSandbox` of that pair;
* `complete` — one in-flight pairing's promise resolves: its Verdict is
  produced, the sandbox is recycled back into the merged supply, and the
  Verdict is reported (`tap(recycle)` then `tap(reportResult)` downstream);
  any in-flight pairing may complete, reflecting concurrent execution;
* `finalize` — the mutant stream is exhausted and every inner promise has
  resolved, so `toArray` emits, `completeRecycle` closes the recycler and
  `reportAll` receives the collected Verdicts.
-/

/-- Configuration of one run: the finite transpiled-mutant stream, the finite
sandbox stream produced by the pool, and the external
`sandbox.runMutant` behaviour. -/
structure Config where
  mutants : List TranspiledMutant
  sandboxes : List Sandbox
  runMutant : Sandbox → TranspiledMutant → RunResult

/-- Observable pipeline events, in occurrence order. -/
inductive Event where
  | pair (tm : TranspiledMutant) (sandbox : Sandbox)
  | recycle (sandbox : Sandbox)
  | report (result : MutantResult)
  | completeRecycle
  | reportAll (results : List MutantResult)
deriving DecidableEq, Repr

/-- Pipeline state: sandboxes the pool has not yet emitted, mutants not yet
paired, the merged sandbox supply not yet consumed by `zip`, the in-flight
pairings, the Verdicts collected so far (in completion order, as `toArray`
buffers them), the event trace, and whether `completeRecycle` has run. -/
structure PState where
  poolPending : List Sandbox
  pending : List TranspiledMutant
  available : List Sandbox
  inFlight : List (TranspiledMutant × Sandbox)
  results : List MutantResult
  events : List Event
  closed : Bool
deriving Repr

/-- Initial state of a run. -/
def initState (cfg : Config) : PState :=
  ⟨cfg.sandboxes, cfg.mutants, [], [], [], [], false⟩

/-- One pipeline step. -/
inductive Step (cfg : Config) : PState → PState → Prop where
  | arrive (s : Sandbox) (pp : List Sandbox) (pend : List TranspiledMutant)
      (av : List Sandbox) (fl : List (TranspiledMutant × Sandbox))
      (res : List MutantResult) (ev : List Event) (cl : Bool) :
      Step cfg ⟨s :: pp, pend, av, fl, res, ev, cl⟩
               ⟨pp, pend, av ++ [s], fl, res, ev, cl⟩
  | dispatch (pp : List Sandbox) (tm : TranspiledMutant)
      (pend : List TranspiledMutant) (s : Sandbox) (av : List Sandbox)
      (fl : List (TranspiledMutant × Sandbox)) (res : List MutantResult)
      (ev : List Event) (cl : Bool) :
      Step cfg ⟨pp, tm :: pend, s :: av, fl, res, ev, cl⟩
               ⟨pp, pend, av, fl ++ [(tm, s)], res, ev ++ [Event.pair tm s], cl⟩
  | complete (pp : List Sandbox) (pend : List TranspiledMutant)
      (av : List Sandbox) (fl₁ : List (TranspiledMutant × Sandbox))
      (tm : TranspiledMutant) (s : Sandbox)
      (fl₂ : List (TranspiledMutant × Sandbox)) (res : List MutantResult)
      (ev : List Event) (cl : Bool) :
      Step cfg ⟨pp, pend, av, fl₁ ++ (tm, s) :: fl₂, res, ev, cl⟩
               ⟨pp, pend, av ++ [s], fl₁ ++ fl₂,
                res ++ [pairVerdict cfg.runMutant tm s],
                ev ++ [Event.recycle s,
                       Event.report (pairVerdict cfg.runMutant tm s)], cl⟩
  | finalize (pp : List Sandbox) (av : List Sandbox) (res : List MutantResult)
      (ev : List Event) :
      Step cfg ⟨pp, [], av, [], res, ev, false⟩
               ⟨pp, [], av, [], res,
                ev ++ [Event.completeRecycle, Event.reportAll res], true⟩

/-- Reachability through pipeline steps. -/
def Reaches (cfg : Config) : PState → PState → Prop :=
  Relation.ReflTransGen (Step cfg)

/-- Number of `pair` events in a trace. -/
def pairCount (ev : List Event) : Nat :=
  ev.countP (fun e => match e with | Event.pair _ _ => true | _ => false)

/-- Number of `recycle` events in a trace. -/
def recycleCount (ev : List Event) : Nat :=
  ev.countP (fun e => match e with | Event.recycle _ => true | _ => false)

/-- Number of `completeRecycle` events in a trace. -/
def closeCount (ev : List Event) : Nat :=
  ev.countP (fun e => match e with | Event.completeRecycle => true | _ => false)

/-- Number of `reportAll` events in a trace. -/
def reportAllCount (ev : List Event) : Nat :=
  ev.countP (fun e => match e with | Event.reportAll _ => true | _ => false)

/-- The reported Verdicts of a trace, in report order. -/
def reportedResults (ev : List Event) : List MutantResult :=
  ev.filterMap (fun e => match e with | Event.report r => some r | _ => none)

/-- Every `recycle` event is immediately followed by a `report` event. -/
def recycleImmediatelyReported : List Event → Bool
  | [] => true
  | Event.recycle _ :: rest =>
      (match rest with | Event.report _ :: _ => true | _ => false)
        && recycleImmediatelyReported rest
  | _ :: rest => recycleImmediatelyReported rest

/-- Mutant identity of a transpiled mutant. -/
def tmId (tm : TranspiledMutant) : Nat := tm.mutant.id

/-- Multiset of mutant identities of a list of transpiled mutants. -/
def idsOfMutants (l : List TranspiledMutant) : Multiset Nat :=
  ↑(l.map tmId)

/-- Multiset of mutant identities of in-flight pairings. -/
def idsOfFlight (l : List (TranspiledMutant × Sandbox)) : Multiset Nat :=
  ↑(l.map (fun q => tmId q.1))

/-- Multiset of mutant identities of a list of Verdicts. -/
def idsOfResults (l : List MutantResult) : Multiset Nat :=
  ↑(l.map MutantResult.mutantId)

/-- Whichever branch produces it, a pairing's Verdict carries the identity of
the paired mutant. -/
theorem pairVerdict_mutantId (f : Sandbox → TranspiledMutant → RunResult)
    (tm : TranspiledMutant) (s : Sandbox) :
    (pairVerdict f tm s).mutantId = tm.mutant.id := by
  unfold pairVerdict earlyResult
  by_cases h₁ : tm.transpileResult.error.isSome
  · simp [h₁, runInSandbox, TestableMutant.result]
  · by_cases h₂ : tm.mutant.selectedTests.length = 0
    · simp [h₁, h₂, runInSandbox, TestableMutant.result]
    · by_cases h₃ : tm.changedAnyTranspiledFiles
      · simp [h₁, h₂, h₃, runInSandbox, collectMutantResult,
          TestableMutant.result]
      · simp [h₁, h₂, h₃, runInSandbox, TestableMutant.result]

/-- State invariant maintained by every pipeline step. -/
structure Inv (cfg : Config) (st : PState) : Prop where
  sandboxCount : st.available.length + st.inFlight.length +
    st.poolPending.length = cfg.sandboxes.length
  mutantCount : st.pending.length + st.inFlight.length + st.results.length =
    cfg.mutants.length
  pairCountEq : pairCount st.events = st.inFlight.length + st.results.length
  recycleCountEq : recycleCount st.events = st.results.length
  reportedEq : reportedResults st.events = st.results
  closeOpen : st.closed = false → closeCount st.events = 0
  raOpen : st.closed = false → reportAllCount st.events = 0
  closedDone : st.closed = true → st.pending = [] ∧ st.inFlight = []
  closedTail : st.closed = true → ∃ pre, st.events =
    pre ++ [Event.completeRecycle, Event.reportAll st.results] ∧
    closeCount pre = 0 ∧ reportAllCount pre = 0
  idsPerm : idsOfMutants st.pending + idsOfFlight st.inFlight +
    idsOfResults st.results = idsOfMutants cfg.mutants
  recycleAdj : recycleImmediatelyReported st.events = true

/-- `recycleImmediatelyReported` is closed under appending. -/
theorem recycleImmediatelyReported_append (xs ys : List Event)
    (hx : recycleImmediatelyReported xs = true)
    (hy : recycleImmediatelyReported ys = true) :
    recycleImmediatelyReported (xs ++ ys) = true := by
  induction xs with
  | nil => simpa using hy
  | cons e rest ih =>
    cases e with
    | recycle s =>
      cases rest with
      | nil => simp [recycleImmediatelyReported] at hx
      | cons e₂ rest₂ =>
        cases e₂ with
        | report r =>
          have hrest : recycleImmediatelyReported
              (Event.report r :: rest₂) = true := by
            simpa [recycleImmediatelyReported] using hx
          have hih := ih hrest
          simpa [recycleImmediatelyReported] using hih
        | pair tm s' => simp [recycleImmediatelyReported] at hx
        | recycle s' => simp [recycleImmediatelyReported] at hx
        | completeRecycle => simp [recycleImmediatelyReported] at hx
        | reportAll rs => simp [recycleImmediatelyReported] at hx
    | pair tm s =>
      simp only [recycleImmediatelyReported] at hx
      simpa [recycleImmediatelyReported] using ih hx
    | report r =>
      simp only [recycleImmediatelyReported] at hx
      simpa [recycleImmediatelyReported] using ih hx
    | completeRecycle =>
      simp only [recycleImmediatelyReported] at hx
      simpa [recycleImmediatelyReported] using ih hx
    | reportAll rs =>
      simp only [recycleImmediatelyReported] at hx
      simpa [recycleImmediatelyReported] using ih hx

/-- The invariant holds initially. -/
theorem inv_init (cfg : Config) : Inv cfg (initState cfg) := by
  refine ⟨?_, ?_, ?_, ?_, ?_, ?_, ?_, ?_, ?_, ?_, ?_⟩ <;>
    simp [initState, pairCount, recycleCount, closeCount, reportAllCount,
      reportedResults, idsOfMutants, idsOfFlight, idsOfResults,
      recycleImmediatelyReported]

/-- Every pipeline step preserves the invariant. -/
theorem inv_step {cfg : Config} {st st' : PState} (h : Step cfg st st')
    (inv : Inv cfg st) : Inv cfg st' := by
  cases h with
  | arrive s pp pend av fl res ev cl =>
    obtain ⟨h₁, h₂, h₃, h₄, h₅, h₆, h₆', h₇, h₈, h₉, h₁₀⟩ := inv
    simp only at h₁ h₂ h₃ h₄ h₅ h₆ h₆' h₇ h₈ h₉ h₁₀
    refine ⟨?_, ?_, ?_, ?_, ?_, ?_, ?_, ?_, ?_, ?_, ?_⟩ <;>
      first
        | (simp at h₁ ⊢; omega)
        | assumption
  | dispatch pp tm pend s av fl res ev cl =>
    obtain ⟨h₁, h₂, h₃, h₄, h₅, h₆, h₆', h₇, h₈, h₉, h₁₀⟩ := inv
    simp only at h₁ h₂ h₃ h₄ h₅ h₆ h₆' h₇ h₈ h₉ h₁₀
    have hcl : cl = false := by
      cases cl
      · rfl
      · exact absurd (h₇ rfl).1 (by simp)
    subst hcl
    refine ⟨?_, ?_, ?_, ?_, ?_, ?_, ?_, ?_, ?_, ?_, ?_⟩
    · simp at h₁ ⊢; omega
    · simp at h₂ ⊢; omega
    · simp [pairCount, List.countP_append, List.countP_cons] at h₃ ⊢
      omega
    · simpa [recycleCount, List.countP_append, List.countP_cons] using h₄
    · simpa [reportedResults, List.filterMap_append] using h₅
    · intro _
      simpa [closeCount, List.countP_append, List.countP_cons] using h₆ rfl
    · intro _
      simpa [reportAllCount, List.countP_append, List.countP_cons]
        using h₆' rfl
    · intro hc; exact absurd hc (by simp)
    · intro hc; exact absurd hc (by simp)
    · simp only [idsOfMutants, idsOfFlight, idsOfResults, List.map_append,
        List.map_cons, List.map_nil, ← Multiset.coe_add,
        ← Multiset.cons_coe] at h₉ ⊢
      rw [← h₉]
      simp only [← Multiset.singleton_add, ← Multiset.coe_singleton]
      abel
    · exact recycleImmediatelyReported_append _ _ h₁₀ (by
        simp [recycleImmediatelyReported])
  | complete pp pend av fl₁ tm s fl₂ res ev cl =>
    obtain ⟨h₁, h₂, h₃, h₄, h₅, h₆, h₆', h₇, h₈, h₉, h₁₀⟩ := inv
    simp only at h₁ h₂ h₃ h₄ h₅ h₆ h₆' h₇ h₈ h₉ h₁₀
    have hcl : cl = false := by
      cases cl
      · rfl
      · exact absurd (h₇ rfl).2 (by simp)
    subst hcl
    refine ⟨?_, ?_, ?_, ?_, ?_, ?_, ?_, ?_, ?_, ?_, ?_⟩
    · simp at h₁ ⊢; omega
    · simp at h₂ ⊢; omega
    · simp [pairCount, List.countP_append, List.countP_cons] at h₃ ⊢
      omega
    · simp [recycleCount, List.countP_append, List.countP_cons] at h₄ ⊢
      omega
    · simp only [reportedResults, List.filterMap_append] at h₅ ⊢
      simp [h₅]
    · intro _
      simpa [closeCount, List.countP_append, List.countP_cons] using h₆ rfl
    · intro _
      simpa [reportAllCount, List.countP_append, List.countP_cons]
        using h₆' rfl
    · intro hc; exact absurd hc (by simp)
    · intro hc; exact absurd hc (by simp)
    · simp only [idsOfMutants, idsOfFlight, idsOfResults, List.map_append,
        List.map_cons, List.map_nil, ← Multiset.coe_add,
        ← Multiset.cons_coe, pairVerdict_mutantId] at h₉ ⊢
      rw [← h₉]
      simp only [← Multiset.singleton_add, ← Multiset.coe_singleton, tmId]
      abel
    · exact recycleImmediatelyReported_append _ _ h₁₀ (by
        simp [recycleImmediatelyReported])
  | finalize pp av res ev =>
    obtain ⟨h₁, h₂, h₃, h₄, h₅, h₆, h₆', h₇, h₈, h₉, h₁₀⟩ := inv
    simp only at h₁ h₂ h₃ h₄ h₅ h₆ h₆' h₇ h₈ h₉ h₁₀
    refine ⟨?_, ?_, ?_, ?_, ?_, ?_, ?_, ?_, ?_, ?_, ?_⟩
    · simpa using h₁
    · simpa using h₂
    · simpa [pairCount, List.countP_append, List.countP_cons] using h₃
    · simpa [recycleCount, List.countP_append, List.countP_cons] using h₄
    · simpa [reportedResults, List.filterMap_append] using h₅
    · intro hc; exact absurd hc (by simp)
    · intro hc; exact absurd hc (by simp)
    · intro _; exact ⟨rfl, rfl⟩
    · intro _
      exact ⟨ev, rfl, h₆ trivial, h₆' trivial⟩
    · simpa using h₉
    · exact recycleImmediatelyReported_append _ _ h₁₀ (by
        simp [recycleImmediatelyReported])

/-- The invariant holds in every reachable state. -/
theorem inv_reaches {cfg : Config} {st : PState}
    (h : Reaches cfg (initState cfg) st) : Inv cfg st := by
  induction h with
  | refl => exact inv_init cfg
  | tail _ hstep ih => exact inv_step hstep ih

/-- If every `recycle` event is immediately followed by a `report` event,
then every decomposition of the trace exposing a `recycle` exposes a
following `report`. -/
theorem recycleImmediatelyReported_spec :
    ∀ (pre : List Event) (s : Sandbox) (suf : List Event),
      recycleImmediatelyReported (pre ++ Event.recycle s :: suf) = true →
      ∃ r suf₂, suf = Event.report r :: suf₂ := by
  intro pre
  induction pre with
  | nil =>
    intro s suf h
    cases suf with
    | nil => simp [recycleImmediatelyReported] at h
    | cons e₂ rest =>
      cases e₂ with
      | report r => exact ⟨r, rest, rfl⟩
      | pair tm s' => simp [recycleImmediatelyReported] at h
      | recycle s' => simp [recycleImmediatelyReported] at h
      | completeRecycle => simp [recycleImmediatelyReported] at h
      | reportAll rs => simp [recycleImmediatelyReported] at h
  | cons e pre' ih =>
    intro s suf h
    refine ih s suf ?_
    cases e with
    | recycle s' =>
      rw [List.cons_append] at h
      cases hpre : pre' ++ Event.recycle s :: suf with
      | nil => exact absurd hpre (by simp)
      | cons e₂ rest =>
        rw [hpre] at h
        cases e₂ <;> simp [recycleImmediatelyReported] at h <;>
          first
            | exact h.2
            | exact h
    | pair tm s' =>
      simpa only [List.cons_append, recycleImmediatelyReported] using h
    | report r =>
      simpa only [List.cons_append, recycleImmediatelyReported] using h
    | completeRecycle =>
      simpa only [List.cons_append, recycleImmediatelyReported] using h
    | reportAll rs =>
      simpa only [List.cons_append, recycleImmediatelyReported] using h

/-- Termination measure for pipeline progress: emitting, pairing and
completing all strictly decrease it, and so does closing. -/
def pipeMeasure (st : PState) : Nat :=
  st.poolPending.length + 3 * st.pending.length + 2 * st.inFlight.length +
    (if st.closed then 0 else 1)

/-- Progress: as long as the pool produced at least one sandbox, an unclosed
reachable state can always take some step, and the measure decreases. -/
theorem progress {cfg : Config} {st : PState} (hs : cfg.sandboxes ≠ [])
    (inv : Inv cfg st) (hcl : st.closed = false) :
    ∃ st', Step cfg st st' ∧ pipeMeasure st' < pipeMeasure st := by
  obtain ⟨pp, pend, av, fl, res, ev, cl⟩ := st
  simp only at hcl
  subst hcl
  cases fl with
  | cons q fl₂ =>
    obtain ⟨tm, s⟩ := q
    exact ⟨_, Step.complete pp pend av [] tm s fl₂ res ev false, by
      simp [pipeMeasure] <;> omega⟩
  | nil =>
    cases pend with
    | nil =>
      exact ⟨_, Step.finalize pp av res ev, by simp [pipeMeasure]⟩
    | cons tm pend' =>
      cases av with
      | cons s av' =>
        exact ⟨_, Step.dispatch pp tm pend' s av' [] res ev false, by
          simp [pipeMeasure] <;> omega⟩
      | nil =>
        cases pp with
        | cons s pp' =>
          exact ⟨_, Step.arrive s pp' (tm :: pend') [] [] res ev false, by
            simp [pipeMeasure]⟩
        | nil =>
          exfalso
          have h₁ := inv.sandboxCount
          simp at h₁
          exact hs (List.length_eq_zero.mp h₁.symm)

/-- Liveness of the close signal: with a nonempty sandbox supply the
pipeline always reaches a closed state (the run terminates rather than
hanging on the recycled-sandbox feedback loop). -/
theorem reaches_closed (cfg : Config) (hs : cfg.sandboxes ≠ []) :
    ∃ st, Reaches cfg (initState cfg) st ∧ st.closed = true := by
  suffices h : ∀ n st, pipeMeasure st = n → Reaches cfg (initState cfg) st →
      ∃ st', Reaches cfg (initState cfg) st' ∧ st'.closed = true by
    exact h _ _ rfl Relation.ReflTransGen.refl
  intro n
  induction n using Nat.strong_induction_on with
  | _ n ih =>
    intro st hm hr
    by_cases hcl : st.closed = true
    · exact ⟨st, hr, hcl⟩
    · have hcl' : st.closed = false := by
        simpa using hcl
      obtain ⟨st', hstep, hlt⟩ := progress hs (inv_reaches hr) hcl'
      exact ih (pipeMeasure st') (hm ▸ hlt) st' rfl (hr.tail hstep)

/-!
## A concrete run

Two mutants that both require execution, two sandboxes, and a schedule in
which the second dispatched execution finishes first.  This exhibits
out-of-order completion: the collected Verdicts are ordered by completion,
not by submission.
-/

/-- First submitted mutant (identity 0); requires execution. -/
def mutA : TranspiledMutant := ⟨⟨0, ["ta"]⟩, ⟨none⟩, true⟩

/-- Second submitted mutant (identity 1); requires execution. -/
def mutB : TranspiledMutant := ⟨⟨1, ["tb"]⟩, ⟨none⟩, true⟩

/-- Two mutants, two sandboxes, every run completes with zero tests. -/
def cfgTwo : Config :=
  ⟨[mutA, mutB], [10, 11], fun _ _ => ⟨RunStatus.Complete, []⟩⟩

/-- Final state of the out-of-order schedule of `cfgTwo`. -/
def stTwoFinal : PState :=
  ⟨[], [], [11, 10], [],
   [pairVerdict cfgTwo.runMutant mutB 11, pairVerdict cfgTwo.runMutant mutA 10],
   [Event.pair mutA 10, Event.pair mutB 11,
    Event.recycle 11, Event.report (pairVerdict cfgTwo.runMutant mutB 11),
    Event.recycle 10, Event.report (pairVerdict cfgTwo.runMutant mutA 10),
    Event.completeRecycle,
    Event.reportAll [pairVerdict cfgTwo.runMutant mutB 11,
                     pairVerdict cfgTwo.runMutant mutA 10]],
   true⟩

/-- The out-of-order schedule is a legal pipeline run of `cfgTwo`. -/
theorem reachesTwoFinal : Reaches cfgTwo (initState cfgTwo) stTwoFinal := by
  refine Relation.ReflTransGen.head
    (Step.arrive 10 [11] [mutA, mutB] [] [] [] [] false) ?_
  refine Relation.ReflTransGen.head
    (Step.arrive 11 [] [mutA, mutB] [10] [] [] [] false) ?_
  refine Relation.ReflTransGen.head
    (Step.dispatch [] mutA [mutB] 10 [11] [] [] [] false) ?_
  refine Relation.ReflTransGen.head
    (Step.dispatch [] mutB [] 11 [] [(mutA, 10)] []
      [Event.pair mutA 10] false) ?_
  refine Relation.ReflTransGen.head
    (Step.complete [] [] [] [(mutA, 10)] mutB 11 [] []
      [Event.pair mutA 10, Event.pair mutB 11] false) ?_
  refine Relation.ReflTransGen.head
    (Step.complete [] [] [11] [] mutA 10 []
      [pairVerdict cfgTwo.runMutant mutB 11]
      [Event.pair mutA 10, Event.pair mutB 11, Event.recycle 11,
       Event.report (pairVerdict cfgTwo.runMutant mutB 11)] false) ?_
  exact Relation.ReflTransGen.head
    (Step.finalize [] [11, 10]
      [pairVerdict cfgTwo.runMutant mutB 11,
       pairVerdict cfgTwo.runMutant mutA 10]
      [Event.pair mutA 10, Event.pair mutB 11, Event.recycle 11,
       Event.report (pairVerdict cfgTwo.runMutant mutB 11), Event.recycle 10,
       Event.report (pairVerdict cfgTwo.runMutant mutA 10)])
    Relation.ReflTransGen.refl

/-!
## Claims
-/

/-- `earlyResult` always returns the mutant and sandbox it was given. -/
theorem earlyResult_fst (tm : TranspiledMutant) (sb : Sandbox) :
    ∃ o, earlyResult (tm, sb) = (tm, sb, o) := by
  unfold earlyResult
  dsimp only
  split_ifs <;> exact ⟨_, rfl⟩

/-- Claim C2: early classification is a first-match-wins ordered policy:
a failed transform gives `TranspileError` with an empty test list; otherwise
an empty selected-tests set gives `NoCoverage` with an empty test list;
otherwise an unchanged transpiled output gives `Survived` with an empty test
list; and whenever an early Verdict exists, `runInSandbox` never invokes the
sandbox's `runMutant` (its outcome is independent of the run oracle and equal
to the early Verdict). -/
theorem claim_C2_early_first_match (tm : TranspiledMutant) (sb : Sandbox) :
    (tm.transpileResult.error.isSome = true →
      (earlyResult (tm, sb)).2.2 =
        some (tm.mutant.result MutantStatus.TranspileError [])) ∧
    (tm.transpileResult.error = none → tm.mutant.selectedTests.length = 0 →
      (earlyResult (tm, sb)).2.2 =
        some (tm.mutant.result MutantStatus.NoCoverage [])) ∧
    (tm.transpileResult.error = none → tm.mutant.selectedTests.length ≠ 0 →
      tm.changedAnyTranspiledFiles = false →
      (earlyResult (tm, sb)).2.2 =
        some (tm.mutant.result MutantStatus.Survived [])) ∧
    (∀ r, (earlyResult (tm, sb)).2.2 = some r →
      ∀ f g, runInSandbox f (earlyResult (tm, sb)) =
          runInSandbox g (earlyResult (tm, sb)) ∧
        runInSandbox f (earlyResult (tm, sb)) = (sb, r)) := by
  refine ⟨?_, ?_, ?_, ?_⟩
  · intro h; simp [earlyResult, h]
  · intro h₁ h₂; simp [earlyResult, h₁, h₂]
  · intro h₁ h₂ h₃; simp [earlyResult, h₁, h₂, h₃]
  · intro r hr f g
    obtain ⟨o, ho⟩ := earlyResult_fst tm sb
    rw [ho] at hr ⊢
    simp only at hr
    subst hr
    exact ⟨rfl, rfl⟩

/-- Transform-failed mutant: first early rule fires. -/
def tmErr : TranspiledMutant := ⟨⟨2, []⟩, ⟨some "transform failed"⟩, true⟩

/-- Uncovered mutant: second early rule fires. -/
def tmNoCov : TranspiledMutant := ⟨⟨3, []⟩, ⟨none⟩, true⟩

/-- Unchanged-output mutant: third early rule fires. -/
def tmNoChange : TranspiledMutant := ⟨⟨4, ["t1"]⟩, ⟨none⟩, false⟩

/-- Witness for claim C2 at concrete mutants exercising all three rules. -/
theorem claim_C2_witness :
    (earlyResult (tmErr, 0)).2.2 =
      some (tmErr.mutant.result MutantStatus.TranspileError []) ∧
    (earlyResult (tmNoCov, 0)).2.2 =
      some (tmNoCov.mutant.result MutantStatus.NoCoverage []) ∧
    (earlyResult (tmNoChange, 0)).2.2 =
      some (tmNoChange.mutant.result MutantStatus.Survived []) :=
  ⟨(claim_C2_early_first_match tmErr 0).1 rfl,
   (claim_C2_early_first_match tmNoCov 0).2.1 rfl rfl,
   (claim_C2_early_first_match tmNoChange 0).2.2.1 rfl (by decide) rfl⟩

/-- Claim C3: for a mutant that passes none of the early-exit checks, the
pairing's Verdict comes from `collectMutantResult` on the sandbox's
`RunResult`; `Timeout` maps to `TimedOut`, `Error` to `RuntimeError`,
`Complete` with a failed exercised test to `Killed`, `Complete` with no
failed exercised test to `Survived`; and in all executed cases the
covering-test list is exactly the names of the non-skipped tests. -/
theorem claim_C3_executed_mapping (tm : TranspiledMutant) (sb : Sandbox)
    (f : Sandbox → TranspiledMutant → RunResult)
    (h₁ : tm.transpileResult.error = none)
    (h₂ : tm.mutant.selectedTests.length ≠ 0)
    (h₃ : tm.changedAnyTranspiledFiles = true) :
    pairVerdict f tm sb = collectMutantResult tm.mutant (some (f sb tm)) ∧
    ∀ rr : RunResult,
      (rr.status = RunStatus.Timeout →
        (collectMutantResult tm.mutant (some rr)).status =
          MutantStatus.TimedOut) ∧
      (rr.status = RunStatus.Error →
        (collectMutantResult tm.mutant (some rr)).status =
          MutantStatus.RuntimeError) ∧
      (rr.status = RunStatus.Complete →
        (∃ t ∈ rr.tests, t.status ≠ TestStatus.Skipped ∧
          t.status = TestStatus.Failed) →
        (collectMutantResult tm.mutant (some rr)).status =
          MutantStatus.Killed) ∧
      (rr.status = RunStatus.Complete →
        (∀ t ∈ rr.tests, ¬(t.status ≠ TestStatus.Skipped ∧
          t.status = TestStatus.Failed)) →
        (collectMutantResult tm.mutant (some rr)).status =
          MutantStatus.Survived) ∧
      (collectMutantResult tm.mutant (some rr)).testsRan =
        (rr.tests.filter (fun t => t.status ≠ TestStatus.Skipped)).map
          (fun t => t.name) := by
  constructor
  · have he : tm.transpileResult.error.isSome = false := by simp [h₁]
    unfold pairVerdict earlyResult
    simp [he, h₂, h₃, runInSandbox]
  · intro rr
    refine ⟨?_, ?_, ?_, ?_, ?_⟩
    · intro h
      simp [collectMutantResult, h, RunStatus.Timeout, RunStatus.Error,
        RunStatus.Complete, TestableMutant.result]
    · intro h
      simp [collectMutantResult, h, RunStatus.Timeout, RunStatus.Error,
        RunStatus.Complete, TestableMutant.result]
    · intro h hex
      have hany : rr.tests.any (fun t => t.status = TestStatus.Failed) = true := by
        rw [List.any_eq_true]
        obtain ⟨t, ht, _, hf⟩ := hex
        exact ⟨t, ht, by simp [hf]⟩
      simp [collectMutantResult, h, hany, RunStatus.Timeout, RunStatus.Error,
        RunStatus.Complete, TestableMutant.result]
    · intro h hnone
      have hany : rr.tests.any (fun t => t.status = TestStatus.Failed) = false := by
        rw [List.any_eq_false]
        intro t ht
        by_cases hf : t.status = TestStatus.Failed
        · exact absurd ⟨by simp [hf], hf⟩ (hnone t ht)
        · simp [hf]
      simp [collectMutantResult, h, hany, RunStatus.Timeout, RunStatus.Error,
        RunStatus.Complete, TestableMutant.result]
    · simp [collectMutantResult, TestableMutant.result]

/-- A mutant that passes none of the early-exit checks. -/
def tmExec : TranspiledMutant := ⟨⟨5, ["t1"]⟩, ⟨none⟩, true⟩

/-- A run oracle that always reports a timeout. -/
def timeoutOracle : Sandbox → TranspiledMutant → RunResult :=
  fun _ _ => ⟨RunStatus.Timeout, []⟩

/-- Witness for claim C3: an executed mutant whose run timed out is
classified `TimedOut`. -/
theorem claim_C3_witness :
    pairVerdict timeoutOracle tmExec 0 =
      collectMutantResult tmExec.mutant (some ⟨RunStatus.Timeout, []⟩) ∧
    (collectMutantResult tmExec.mutant
      (some ⟨RunStatus.Timeout, []⟩)).status = MutantStatus.TimedOut := by
  have h := claim_C3_executed_mapping tmExec 0 timeoutOracle rfl
    (by decide) rfl
  exact ⟨h.1, (h.2 ⟨RunStatus.Timeout, []⟩).1 rfl⟩

/-- A mutant whose transform failed and whose selected-tests set is empty. -/
def tmC6 : TranspiledMutant := ⟨⟨6, []⟩, ⟨some "transform failed"⟩, true⟩

/-- Counterexample to claim C6: for a mutant with an empty selected-tests set
whose transform failed, `earlyResult` classifies it `TranspileError`, not
`NoCoverage` — the transform-failure rule takes precedence. -/
theorem claim_C6_counterexample :
    tmC6.mutant.selectedTests = [] ∧
    (earlyResult (tmC6, 0)).2.2 =
      some (tmC6.mutant.result MutantStatus.TranspileError []) ∧
    (tmC6.mutant.result MutantStatus.TranspileError []).status ≠
      MutantStatus.NoCoverage := by decide

/-- Claim C6 as amended: a mutant whose selected-tests set is empty and whose
transform did not fail always yields `NoCoverage` — regardless of the
change-detection outcome — and the sandbox's `runMutant` is never invoked for
it (when the transform failed, the verdict is `TranspileError` instead, the
sandbox still being bypassed, per C2). -/
theorem claim_C6_amended (tm : TranspiledMutant) (sb : Sandbox)
    (h₀ : tm.transpileResult.error = none)
    (h₁ : tm.mutant.selectedTests = []) :
    (earlyResult (tm, sb)).2.2 =
      some (tm.mutant.result MutantStatus.NoCoverage []) ∧
    ∀ f g, runInSandbox f (earlyResult (tm, sb)) =
      runInSandbox g (earlyResult (tm, sb)) := by
  have he : (earlyResult (tm, sb)).2.2 =
      some (tm.mutant.result MutantStatus.NoCoverage []) := by
    simp [earlyResult, h₀, h₁]
  refine ⟨he, ?_⟩
  intro f g
  obtain ⟨o, ho⟩ := earlyResult_fst tm sb
  rw [ho] at he ⊢
  simp only at he
  subst he
  rfl

/-- An uncovered mutant whose transform succeeded without changing output. -/
def tmC6a : TranspiledMutant := ⟨⟨7, []⟩, ⟨none⟩, false⟩

/-- Witness for the amended claim C6: the empty-selected-tests rule fires
even when no transpiled file changed. -/
theorem claim_C6_amended_witness :
    (earlyResult (tmC6a, 0)).2.2 =
      some (tmC6a.mutant.result MutantStatus.NoCoverage []) ∧
    runInSandbox timeoutOracle (earlyResult (tmC6a, 0)) =
      runInSandbox (fun _ _ => ⟨RunStatus.Complete, []⟩)
        (earlyResult (tmC6a, 0)) :=
  ⟨(claim_C6_amended tmC6a 0 rfl rfl).1,
   (claim_C6_amended tmC6a 0 rfl rfl).2 timeoutOracle
     (fun _ _ => ⟨RunStatus.Complete, []⟩)⟩

/-- A mutant requiring execution, used to probe classification without an
outcome. -/
def mutC7 : TestableMutant := ⟨8, ["t1"]⟩

/-- Counterexample to claim C7: when classification is reached without a
`RunResult`, the code does not abort and does not withhold a Verdict — it
totally returns a `NoCoverage` Verdict with an empty test list. -/
theorem claim_C7_counterexample :
    collectMutantResult mutC7 none =
      mutC7.result MutantStatus.NoCoverage [] ∧
    (collectMutantResult mutC7 none).status = MutantStatus.NoCoverage := by
  decide

/-- Claim C7 as amended: if classification is reached without a `RunOutcome`,
the pipeline does not abort: `collectMutantResult` falls back to producing a
per-mutant Verdict with status `NoCoverage` and an empty test list. -/
theorem claim_C7_amended (m : TestableMutant) :
    collectMutantResult m none = m.result MutantStatus.NoCoverage [] := rfl

/-- Claim C10: `collectMutantResult` is total and never signals an error: a
missing `RunResult` gives a `NoCoverage` Verdict with an empty test list, and
a `RunResult` whose status is none of `Timeout`, `Error`, `Complete` likewise
defaults to `NoCoverage`, with the non-skipped test names as the list. -/
theorem claim_C10_total_defaults (m : TestableMutant) (rr : RunResult)
    (h₁ : rr.status ≠ RunStatus.Timeout) (h₂ : rr.status ≠ RunStatus.Error)
    (h₃ : rr.status ≠ RunStatus.Complete) :
    collectMutantResult m none = m.result MutantStatus.NoCoverage [] ∧
    collectMutantResult m (some rr) =
      m.result MutantStatus.NoCoverage
        ((rr.tests.filter (fun t => t.status ≠ TestStatus.Skipped)).map
          (fun t => t.name)) := by
  refine ⟨rfl, ?_⟩
  simp [collectMutantResult, h₁, h₂, h₃]

/-- A `RunResult` with an out-of-range status code and one skipped plus one
passed test. -/
def rrOutOfRange : RunResult :=
  ⟨5, [⟨"skipped one", TestStatus.Skipped⟩, ⟨"passed one", TestStatus.Success⟩]⟩

/-- Witness for claim C10 at an out-of-range status code. -/
theorem claim_C10_witness :
    collectMutantResult ⟨9, []⟩ (some rrOutOfRange) =
      TestableMutant.result ⟨9, []⟩ MutantStatus.NoCoverage
        ((rrOutOfRange.tests.filter
          (fun t => t.status ≠ TestStatus.Skipped)).map (fun t => t.name)) :=
  (claim_C10_total_defaults ⟨9, []⟩ rrOutOfRange (by decide) (by decide)
    (by decide)).2

/-- Claim C1: when a run completes, the collected Verdicts number exactly one
per submitted mutant, with the multiset of Verdict identities a permutation
of the multiset of submitted mutant identities — no duplicate, no omission. -/
theorem claim_C1_one_verdict_per_mutant (cfg : Config) (st : PState)
    (hr : Reaches cfg (initState cfg) st) (hcl : st.closed = true) :
    st.results.length = cfg.mutants.length ∧
    (st.results.map MutantResult.mutantId).Perm (cfg.mutants.map tmId) := by
  have inv := inv_reaches hr
  obtain ⟨hpend, hfl⟩ := inv.closedDone hcl
  constructor
  · have h := inv.mutantCount
    rw [hpend, hfl] at h
    simpa using h
  · have h := inv.idsPerm
    rw [hpend, hfl] at h
    simp only [idsOfMutants, idsOfFlight, idsOfResults, List.map_nil] at h
    rw [← Multiset.coe_eq_coe]
    simpa using h

/-- Witness for claim C1 on the completed two-mutant run. -/
theorem claim_C1_witness :
    stTwoFinal.results.length = cfgTwo.mutants.length ∧
    (stTwoFinal.results.map MutantResult.mutantId).Perm
      (cfgTwo.mutants.map tmId) :=
  claim_C1_one_verdict_per_mutant cfgTwo stTwoFinal reachesTwoFinal rfl

/-- Claim C4: every pairing's sandbox is recycled exactly once, immediately
when the pairing's Verdict is produced (each `recycle` event is directly
followed by that Verdict's `report` event), on the early-exit path and the
executed path alike; at any instant recycle events equal completed pairings,
and on a completed run total recycle events equal total pairings, which equal
the number of mutants. -/
theorem claim_C4_recycle_once (cfg : Config) (st : PState)
    (hr : Reaches cfg (initState cfg) st) :
    recycleCount st.events = st.results.length ∧
    (∀ pre s suf, st.events = pre ++ Event.recycle s :: suf →
      ∃ r suf₂, suf = Event.report r :: suf₂) ∧
    (st.closed = true →
      recycleCount st.events = pairCount st.events ∧
      pairCount st.events = cfg.mutants.length) := by
  have inv := inv_reaches hr
  refine ⟨inv.recycleCountEq, ?_, ?_⟩
  · intro pre s suf heq
    exact recycleImmediatelyReported_spec pre s suf (heq ▸ inv.recycleAdj)
  · intro hcl
    obtain ⟨hpend, hfl⟩ := inv.closedDone hcl
    have hp : pairCount st.events = st.results.length := by
      have h := inv.pairCountEq
      rw [hfl] at h
      simpa using h
    have hm : st.results.length = cfg.mutants.length := by
      have h := inv.mutantCount
      rw [hpend, hfl] at h
      simpa using h
    exact ⟨by rw [inv.recycleCountEq, hp], by rw [hp, hm]⟩

/-- Witness for claim C4 on the completed two-mutant run. -/
theorem claim_C4_witness :
    recycleCount stTwoFinal.events = stTwoFinal.results.length ∧
    recycleCount stTwoFinal.events = pairCount stTwoFinal.events ∧
    pairCount stTwoFinal.events = cfgTwo.mutants.length :=
  ⟨(claim_C4_recycle_once cfgTwo stTwoFinal reachesTwoFinal).1,
   ((claim_C4_recycle_once cfgTwo stTwoFinal reachesTwoFinal).2.2 rfl).1,
   ((claim_C4_recycle_once cfgTwo stTwoFinal reachesTwoFinal).2.2 rfl).2⟩

/-- Claim C5: `completeRecycle` runs exactly once per run and only at the
end: no close event occurs while the run is open; on a completed run there is
exactly one close event, it comes after the mutant stream is exhausted and
every pairing has completed, and every one of the run's recycle and pairing
events precedes it; and (no missing close) whenever the pool supplies at
least one sandbox, a closed state is reachable, so termination is not hung. -/
theorem claim_C5_close_signal (cfg : Config) (st : PState)
    (hr : Reaches cfg (initState cfg) st) :
    (st.closed = false → closeCount st.events = 0) ∧
    (st.closed = true →
      closeCount st.events = 1 ∧ st.pending = [] ∧ st.inFlight = [] ∧
      ∃ pre, st.events =
          pre ++ [Event.completeRecycle, Event.reportAll st.results] ∧
        closeCount pre = 0 ∧ recycleCount pre = cfg.mutants.length ∧
        pairCount pre = cfg.mutants.length) ∧
    (cfg.sandboxes ≠ [] →
      ∃ st', Reaches cfg (initState cfg) st' ∧ st'.closed = true) := by
  have inv := inv_reaches hr
  refine ⟨inv.closeOpen, ?_, fun hs => reaches_closed cfg hs⟩
  intro hcl
  obtain ⟨hpend, hfl⟩ := inv.closedDone hcl
  obtain ⟨pre, hev, hc0, hra0⟩ := inv.closedTail hcl
  have hres : st.results.length = cfg.mutants.length := by
    have h := inv.mutantCount
    rw [hpend, hfl] at h
    simpa using h
  have hrc : recycleCount st.events = recycleCount pre := by
    rw [hev]
    simp [recycleCount, List.countP_append, List.countP_cons]
  have hpc : pairCount st.events = pairCount pre := by
    rw [hev]
    simp [pairCount, List.countP_append, List.countP_cons]
  have hp : pairCount st.events = st.results.length := by
    have h := inv.pairCountEq
    rw [hfl] at h
    simpa using h
  refine ⟨?_, hpend, hfl, pre, hev, hc0, ?_, ?_⟩
  · have hsum : closeCount
        (pre ++ [Event.completeRecycle, Event.reportAll st.results]) =
        closeCount pre + 1 := by
      simp [closeCount, List.countP_append, List.countP_cons]
    rw [hev, hsum, hc0]
  · rw [← hrc, inv.recycleCountEq, hres]
  · rw [← hpc, hp, hres]

/-- Witness for claim C5 on the completed two-mutant run. -/
theorem claim_C5_witness :
    closeCount stTwoFinal.events = 1 ∧ stTwoFinal.pending = [] ∧
    stTwoFinal.inFlight = [] :=
  ⟨((claim_C5_close_signal cfgTwo stTwoFinal reachesTwoFinal).2.1 rfl).1,
   ((claim_C5_close_signal cfgTwo stTwoFinal reachesTwoFinal).2.1 rfl).2.1,
   ((claim_C5_close_signal cfgTwo stTwoFinal reachesTwoFinal).2.1
     rfl).2.2.1⟩

/-- Claim C8: at every reachable instant, the number of in-flight pairings
never exceeds the number of sandboxes the merged supply has produced so far
(the pool's emissions minus those still pending), and in particular never
exceeds the pool's total sandbox count — the zip pairing enforces the
concurrency bound. -/
theorem claim_C8_concurrency_bound (cfg : Config) (st : PState)
    (hr : Reaches cfg (initState cfg) st) :
    st.inFlight.length ≤ cfg.sandboxes.length - st.poolPending.length ∧
    st.inFlight.length ≤ cfg.sandboxes.length := by
  have h := (inv_reaches hr).sandboxCount
  omega

/-- Witness for claim C8 on the completed two-mutant run. -/
theorem claim_C8_witness :
    stTwoFinal.inFlight.length ≤
      cfgTwo.sandboxes.length - stTwoFinal.poolPending.length ∧
    stTwoFinal.inFlight.length ≤ cfgTwo.sandboxes.length :=
  claim_C8_concurrency_bound cfgTwo stTwoFinal reachesTwoFinal

/-- Claim C9: the collection a completed run resolves with is exactly the
sequence of Verdicts in the order they were individually reported
(completion order); it is handed to `reportAll` exactly once, at the very
end of the trace; and it is not in general the submission order — the
two-mutant run completes out of submission order. -/
theorem claim_C9_completion_order (cfg : Config) (st : PState)
    (hr : Reaches cfg (initState cfg) st) (hcl : st.closed = true) :
    reportedResults st.events = st.results ∧
    reportAllCount st.events = 1 ∧
    (∃ pre, st.events =
      pre ++ [Event.completeRecycle, Event.reportAll st.results]) ∧
    (∃ st₂, Reaches cfgTwo (initState cfgTwo) st₂ ∧ st₂.closed = true ∧
      st₂.results.map MutantResult.mutantId ≠ cfgTwo.mutants.map tmId) := by
  have inv := inv_reaches hr
  obtain ⟨pre, hev, hc0, hra0⟩ := inv.closedTail hcl
  refine ⟨inv.reportedEq, ?_, ⟨pre, hev⟩,
    ⟨stTwoFinal, reachesTwoFinal, rfl, by decide⟩⟩
  have hsum : reportAllCount
      (pre ++ [Event.completeRecycle, Event.reportAll st.results]) =
      reportAllCount pre + 1 := by
    simp [reportAllCount, List.countP_append, List.countP_cons]
  rw [hev, hsum, hra0]

/-- Witness for claim C9 on the completed two-mutant run. -/
theorem claim_C9_witness :
    reportedResults stTwoFinal.events = stTwoFinal.results ∧
    reportAllCount stTwoFinal.events = 1 :=
  ⟨(claim_C9_completion_order cfgTwo stTwoFinal reachesTwoFinal rfl).1,
   (claim_C9_completion_order cfgTwo stTwoFinal reachesTwoFinal rfl).2.1⟩

end Stryker
